import Mathlib

/-!
# Verification of the festival potato point-of-sale register

Shallow embedding of `src/app.py`: the in-memory basket, the per-day
spreadsheet ledger (a store of named sheets of string cells), the
transaction save/cancel operations, and the aggregation helpers, together
with proofs of the specified properties.

Wall-clock inputs (`datetime.now()`, `date.today()`) are passed in as
explicit parameters `ts` (time-of-day string) and `today` (ISO date
string), since the Python code only ever formats them into cells and
sheet names.
-/

namespace PotatoApp

/-! ## Decimal rendering of integers (how numeric cells come back from the
store as strings) and Python `int()` string parsing -/

/-- ASCII digit test, `'0'..'9'` by code point. -/
def isAsciiDigit (c : Char) : Bool := 48 ≤ c.toNat && c.toNat ≤ 57

/-- Whitespace stripped by Python `int()` before parsing (ASCII subset). -/
def isPySpace (c : Char) : Bool :=
  c.toNat = 32 || c.toNat = 9 || c.toNat = 10 || c.toNat = 13 || c.toNat = 11 || c.toNat = 12

/-- The digit character for a value `0 ≤ n ≤ 9`. -/
def natDigitChar (n : Nat) : Char := Char.ofNat (48 + n)

/-- Fuel-indexed big-endian decimal digit expansion (structural recursion so
that the kernel can evaluate it). -/
def natReprCore : Nat → Nat → List Char → List Char
  | 0, _, acc => acc
  | fuel + 1, n, acc =>
    if n < 10 then natDigitChar n :: acc
    else natReprCore fuel (n / 10) (natDigitChar (n % 10) :: acc)

/-- Big-endian decimal digits of `n`. -/
def natDigits (n : Nat) : List Char := natReprCore (n + 1) n []

/-- Decimal string of a natural number, e.g. `natRepr 300 = "300"`. -/
def natRepr (n : Nat) : String := String.mk (natDigits n)

/-- After an initial digit, Python `int()` accepts digits with single
underscores strictly between digits. -/
def pyDigitsRest : List Char → Bool
  | [] => true
  | c :: rest =>
    if c.toNat = 95 then
      (match rest with
       | c2 :: _ => isAsciiDigit c2
       | [] => false) && pyDigitsRest rest
    else isAsciiDigit c && pyDigitsRest rest

/-- A valid unsigned digit group for Python `int()`: nonempty, starts with a
digit, and underscores only between digits. -/
def pyDigitsOk : List Char → Bool
  | [] => false
  | c :: rest => isAsciiDigit c && pyDigitsRest rest

/-- Numeric value of a digit group, ignoring underscore separators. -/
def pyDigitsVal (a : Nat) (cs : List Char) : Nat :=
  cs.foldl (fun acc c => if c.toNat = 95 then acc else 10 * acc + (c.toNat - 48)) a

/-- Strip leading and trailing whitespace. -/
def pyStrip (cs : List Char) : List Char :=
  (((cs.dropWhile isPySpace).reverse).dropWhile isPySpace).reverse

/-- Sign handling and digit group of Python `int()`, after stripping. -/
def parsePyCore : List Char → Option Int
  | [] => none
  | c :: rest =>
    if c = '+' then
      if pyDigitsOk rest then some (Int.ofNat (pyDigitsVal 0 rest)) else none
    else if c = '-' then
      if pyDigitsOk rest then some (-(Int.ofNat (pyDigitsVal 0 rest))) else none
    else
      if pyDigitsOk (c :: rest) then some (Int.ofNat (pyDigitsVal 0 (c :: rest))) else none

/-- Python `int(s)` on a string: strip whitespace, optional sign, digit
group; `none` models a raised `ValueError`. -/
def parsePyInt (s : String) : Option Int := parsePyCore (pyStrip s.toList)

/-! ## The data model: cells, rows, sheets, the spreadsheet store -/

/-- A spreadsheet cell as returned by `get_all_values` (always a string). -/
abbrev Cell := String

/-- One spreadsheet row. -/
abbrev Row := List Cell

/-- One worksheet: its nonempty rows in order (`row 0` is the header when
present). -/
abbrev Sheet := List Row

/-- The spreadsheet: titled worksheets in tab order. -/
abbrev Store := List (String × Sheet)

/-- The header row written when a day's ledger is first created. -/
def headerRow : Row := ["timestamp", "date", "count", "amount", "detail"]

/-- `sh.worksheet(title)`: first worksheet with the given title, if any. -/
def findSheet : Store → String → Option Sheet
  | [], _ => none
  | (t, ws) :: rest, title => if t = title then some ws else findSheet rest title

/-- Replace the (first) worksheet with the given title. -/
def updateSheet : Store → String → Sheet → Store
  | [], _, _ => []
  | (t, ws) :: rest, title, ws2 =>
    if t = title then (title, ws2) :: rest else (t, ws) :: updateSheet rest title ws2

/-- `get_all_values` of today's worksheet, `[]` when it does not exist. -/
def todaysValues (today : String) (s : Store) : Sheet :=
  (findSheet s today).getD []

/-- The Transaction Rows of today's ledger (everything after the header). -/
def txRows (today : String) (s : Store) : List Row :=
  match findSheet s today with
  | none => []
  | some ws => ws.drop 1

/-- The number of Transaction Rows in today's ledger. -/
def txRowCount (today : String) (s : Store) : Nat := (txRows today s).length

/-- `get_today_worksheet()`: fetch today's worksheet, creating it with the
header row (appended as the last tab) when absent. Returns the updated
store and the worksheet's rows. -/
def get_today_worksheet (today : String) (s : Store) : Store × Sheet :=
  match findSheet s today with
  | some ws => (s, ws)
  | none => (s ++ [(today, [headerRow])], [headerRow])

/-! ## Aggregation -/

/-- Componentwise sum of `(count, amount)` pairs. -/
def addPair (x y : Int × Int) : Int × Int := (x.1 + y.1, x.2 + y.2)

/-- The contribution of one row inside the `try` block of the aggregation
loops: `c = int(row[2]); a = int(row[3])` with `IndexError`/`ValueError`
skipping the whole row. -/
def rowStat (r : Row) : Int × Int :=
  match r.get? 2 with
  | none => (0, 0)
  | some s2 =>
    match parsePyInt s2 with
    | none => (0, 0)
    | some c =>
      match r.get? 3 with
      | none => (0, 0)
      | some s3 =>
        match parsePyInt s3 with
        | none => (0, 0)
        | some a => (c, a)

/-- The aggregation loop: running totals over a list of rows. -/
def sumStats (rows : List Row) : Int × Int :=
  rows.foldl (fun acc r => addPair acc (rowStat r)) (0, 0)

/-- Per-worksheet totals as computed inside `get_last_n_days_stats`
(`continue` on a sheet with at most the header). -/
def sheetStats (ws : Sheet) : Int × Int :=
  if ws.length ≤ 1 then (0, 0) else sumStats (ws.drop 1)

/-- `get_today_stats()`: totals of today's ledger (creating it when
absent); returns the updated store and the `(count, amount)` pair. -/
def get_today_stats (today : String) (s : Store) : Store × (Int × Int) :=
  let r := get_today_worksheet today s
  if r.2.length ≤ 1 then (r.1, (0, 0))
  else (r.1, sumStats (r.2.drop 1))

/-! ## Calendar dates (`datetime.date`) -/

/-- A Python `datetime.date`. -/
structure PDate where
  year : Nat
  month : Nat
  day : Nat
deriving DecidableEq

/-- Order-embedding key: dates compare lexicographically by
(year, month, day), and day < 100, month < 100 on valid dates. -/
def PDate.key (d : PDate) : Nat := 10000 * d.year + 100 * d.month + d.day

/-- Length of a month, honouring leap years. -/
def daysInMonth (y m : Nat) : Nat :=
  if m = 2 then
    if y % 4 = 0 && (y % 100 ≠ 0 || y % 400 = 0) then 29 else 28
  else if m = 4 || m = 6 || m = 9 || m = 11 then 30
  else 31

/-- Numeric value of a digit character. -/
def digitVal (c : Char) : Nat := c.toNat - 48

/-- `date.fromisoformat(s)`: accepts exactly `YYYY-MM-DD` with a valid
calendar date, `none` models a raised `ValueError`. -/
def date_fromisoformat (s : String) : Option PDate :=
  match s.toList with
  | [y1, y2, y3, y4, h1, m1, m2, h2, d1, d2] =>
    if isAsciiDigit y1 && isAsciiDigit y2 && isAsciiDigit y3 && isAsciiDigit y4 &&
        h1 = '-' && isAsciiDigit m1 && isAsciiDigit m2 &&
        h2 = '-' && isAsciiDigit d1 && isAsciiDigit d2 then
      let y := 1000 * digitVal y1 + 100 * digitVal y2 + 10 * digitVal y3 + digitVal y4
      let m := 10 * digitVal m1 + digitVal m2
      let d := 10 * digitVal d1 + digitVal d2
      if 1 ≤ y && 1 ≤ m && m ≤ 12 && 1 ≤ d && d ≤ daysInMonth y m then
        some ⟨y, m, d⟩
      else none
    else none
  | _ => none

/-- Zero-pad a decimal string on the left to width `w`. -/
def padLeft (w : Nat) (s : String) : String :=
  String.mk (List.replicate (w - s.toList.length) '0') ++ s

/-- `date.isoformat()`: `YYYY-MM-DD`, zero padded. -/
def PDate.iso (d : PDate) : String :=
  padLeft 4 (natRepr d.year) ++ "-" ++ padLeft 2 (natRepr d.month) ++ "-" ++
    padLeft 2 (natRepr d.day)

/-! ## Period statistics -/

/-- Python `xs[-n:]` for a nonnegative `n` (`n = 0` yields the whole
list). -/
def pySliceLastN {α : Type} (n : Nat) (xs : List α) : List α :=
  if n = 0 then xs else xs.drop (xs.length - n)

/-- Ordering used to sort `(date, worksheet)` pairs by date. -/
def dateFst (x y : PDate × Sheet) : Prop := x.1.key ≤ y.1.key

instance : DecidableRel dateFst := fun x y => Nat.decLe x.1.key y.1.key

/-- `get_last_n_days_stats(n)`: collect the worksheets whose title parses
as an ISO date, sort by date, slice the last `n`, total their rows, and
report the window endpoints. -/
def get_last_n_days_stats (n : Nat) (s : Store) :
    Int × Int × Option String × Option String :=
  let date_sheets := s.filterMap fun tw => (date_fromisoformat tw.1).map fun d => (d, tw.2)
  if date_sheets.isEmpty then (0, 0, none, none)
  else
    let sorted := List.insertionSort dateFst date_sheets
    let last := pySliceLastN n sorted
    let t := last.foldl (fun acc dw => addPair acc (sheetStats dw.2)) (0, 0)
    match last.head?, last.getLast? with
    | some f, some l => (t.1, t.2, some f.1.iso, some l.1.iso)
    | _, _ => (t.1, t.2, none, none)

/-! ## Cancel and save -/

/-- Result of `cancel_last_transaction` (the `st.warning` branch is the
`EmptyLedgerError` of the specification). -/
inductive VoidOutcome
  | ok
  | emptyLedger
deriving DecidableEq

/-- `cancel_last_transaction()`: fetch (or create) today's worksheet; if it
has at most the header row, report the empty-ledger error; otherwise delete
its last row. -/
def cancel_last_transaction (today : String) (s : Store) : Store × VoidOutcome :=
  let r := get_today_worksheet today s
  if r.2.length ≤ 1 then (r.1, .emptyLedger)
  else (updateSheet r.1 today r.2.dropLast, .ok)

/-- Result of `save_transaction` (the `st.warning` branch is the
`EmptyBasketError` of the specification). -/
inductive SaveOutcome
  | ok
  | emptyBasket
deriving DecidableEq

/-- The `detail` cell: group the basket's prices, sort groups by ascending
price, render each as `"<price>円×<count>"`, join with `", "`. -/
def detailString (basket : List Nat) : String :=
  let ks := List.insertionSort (· ≤ ·) basket.dedup
  String.intercalate ", " (ks.map fun p => natRepr p ++ "円×" ++ natRepr (basket.count p))

/-- `save_transaction(basket)`: refuse an empty basket, otherwise append
one row `[ts, today, len, sum, detail]` to today's ledger. -/
def save_transaction (today ts : String) (basket : List Nat) (s : Store) :
    Store × SaveOutcome :=
  if basket.isEmpty then (s, .emptyBasket)
  else
    let r := get_today_worksheet today s
    let row : Row :=
      [ts, today, natRepr basket.length, natRepr basket.sum, detailString basket]
    (updateSheet r.1 today (r.2 ++ [row]), .ok)

/-- The confirm-sale handler of `main()`: when the basket is nonempty, save
the transaction and clear the basket; otherwise report the empty-basket
error and change nothing. Returns `((basket, store), outcome)`. -/
def confirm_sale (today ts : String) (basket : List Nat) (s : Store) :
    (List Nat × Store) × SaveOutcome :=
  if basket.isEmpty then ((basket, s), .emptyBasket)
  else
    let r := save_transaction today ts basket s
    (([], r.1), r.2)

/-! ## The session state machine -/

/-- The per-session state: the in-memory basket plus the external store. -/
structure SessionState where
  basket : List Nat
  store : Store
deriving DecidableEq

/-- One discrete operator action. -/
inductive Op
  | addItem (price : Nat)
  | resetBasket
  | confirmSale (ts : String)
  | voidLast
  | readTodayStats
  | readPeriodStats (n : Nat)
deriving DecidableEq

/-- The effect of one operator action on the session state. -/
def step (today : String) (st : SessionState) : Op → SessionState
  | .addItem p => ⟨st.basket ++ [p], st.store⟩
  | .resetBasket => ⟨[], st.store⟩
  | .confirmSale ts =>
    let r := confirm_sale today ts st.basket st.store
    ⟨r.1.1, r.1.2⟩
  | .voidLast => ⟨st.basket, (cancel_last_transaction today st.store).1⟩
  | .readTodayStats => ⟨st.basket, (get_today_stats today st.store).1⟩
  | .readPeriodStats _ => ⟨st.basket, st.store⟩

/-- The specification's Day Ledger states. -/
inductive LedgerState
  | absent
  | headerOnly
  | hasRows
deriving DecidableEq

/-- Progress rank of a ledger state. -/
def LedgerState.rank : LedgerState → Nat
  | .absent => 0
  | .headerOnly => 1
  | .hasRows => 2

/-- The Day Ledger state of `today` in a store. -/
def ledgerState (today : String) (s : Store) : LedgerState :=
  match findSheet s today with
  | none => .absent
  | some ws => if ws.length ≤ 1 then .headerOnly else .hasRows

/-- Today's ledger exists and its first row is the header row. -/
def headerPresent (today : String) (s : Store) : Bool :=
  match findSheet s today with
  | some (r :: _) => r = headerRow
  | _ => false

/-- The special-discount panel of `main()`: `(unlocked, noticeShown)` as a
function of the entered and configured passwords
(`if pwd == DISCOUNT_PASSWORD: ... elif pwd != "": st.error(...)`). -/
def special_discount_panel (pwd configured : String) : Bool × Bool :=
  if pwd = configured then (true, false)
  else if pwd ≠ "" then (false, true)
  else (false, false)

/-! ## Spec-side formulations (used to state refinement claims) -/

/-- Per-row contribution as the spec words it: a row is skipped exactly
when its count or amount field is missing or does not parse as an
integer. -/
def specRowStat (r : Row) : Int × Int :=
  match (r.get? 2).bind parsePyInt, (r.get? 3).bind parsePyInt with
  | some c, some a => (c, a)
  | _, _ => (0, 0)

/-- Spec-side totals of a worksheet: sum the per-row contributions over all
non-header rows. -/
def specSheetStats (ws : Sheet) : Int × Int :=
  (ws.drop 1).foldl (fun acc r => addPair acc (specRowStat r)) (0, 0)

/-- Modelled from the spec: `period_stats(n)` considers exactly the tables
whose names parse as ISO calendar dates, sorts them ascending by date,
takes the last `n` (or all if fewer exist), sums the per-row contributions
over their rows skipping malformed rows, and returns `(0, 0, none, none)`
when no dated table exists, else the totals with the first and last
selected dates as ISO strings. -/
def specPeriodStats (n : Nat) (s : Store) :
    Int × Int × Option String × Option String :=
  let dated := s.filterMap fun tw => (date_fromisoformat tw.1).map fun d => (d, tw.2)
  if dated.isEmpty then (0, 0, none, none)
  else
    let sorted := List.insertionSort dateFst dated
    let sel := sorted.drop (sorted.length - min n sorted.length)
    let t := sel.foldl (fun acc dw => addPair acc (specSheetStats dw.2)) (0, 0)
    (t.1, t.2, sel.head?.map fun f => f.1.iso, sel.getLast?.map fun l => l.1.iso)

/-- Today's ledger, when it exists, is a nonempty list of rows. -/
def wfToday (today : String) (s : Store) : Bool :=
  match findSheet s today with
  | none => true
  | some ws => !ws.isEmpty

/-! ## Lemmas: decimal rendering round-trips through `int()` parsing -/

theorem natDigitChar_toNat {n : Nat} (h : n < 10) : (natDigitChar n).toNat = 48 + n := by
  interval_cases n <;> decide

theorem natReprCore_append (fuel : Nat) : ∀ n acc, n < fuel →
    natReprCore fuel n acc = natDigits n ++ acc := by
  induction fuel using Nat.strong_induction_on with
  | _ fuel ih =>
    intro n acc hn
    match fuel, hn with
    | fuel + 1, hn =>
      by_cases h10 : n < 10
      · simp [natReprCore, natDigits, h10]
      · have hd : n / 10 < n := Nat.div_lt_self (by omega) (by omega)
        rw [natReprCore, if_neg h10,
          ih fuel (Nat.lt_succ_self fuel) (n / 10) _ (by omega)]
        conv_rhs => rw [natDigits, natReprCore, if_neg h10,
          ih n hn (n / 10) _ (by omega)]
        simp

theorem natDigits_eq (n : Nat) : natDigits n =
    if n < 10 then [natDigitChar n]
    else natDigits (n / 10) ++ [natDigitChar (n % 10)] := by
  by_cases h10 : n < 10
  · simp [natDigits, natReprCore, h10]
  · have hd : n / 10 < n := Nat.div_lt_self (by omega) (by omega)
    rw [natDigits, natReprCore, if_neg h10,
      natReprCore_append n (n / 10) _ (by omega), if_neg h10]

theorem natDigits_bounds (n : Nat) : ∀ c ∈ natDigits n, 48 ≤ c.toNat ∧ c.toNat ≤ 57 := by
  induction n using Nat.strong_induction_on with
  | _ n ih =>
    intro c hc
    rw [natDigits_eq] at hc
    by_cases h10 : n < 10
    · rw [if_pos h10] at hc
      simp only [List.mem_singleton] at hc
      subst hc
      rw [natDigitChar_toNat h10]
      omega
    · rw [if_neg h10] at hc
      rcases List.mem_append.mp hc with h | h
      · exact ih (n / 10) (Nat.div_lt_self (by omega) (by omega)) c h
      · simp only [List.mem_singleton] at h
        subst h
        rw [natDigitChar_toNat (Nat.mod_lt n (by omega))]
        omega

theorem natDigits_ne_nil (n : Nat) : natDigits n ≠ [] := by
  rw [natDigits_eq]
  by_cases h10 : n < 10 <;> simp [h10]

theorem pyDigitsVal_natDigits (n : Nat) : ∀ a,
    pyDigitsVal a (natDigits n) = a * 10 ^ (natDigits n).length + n := by
  induction n using Nat.strong_induction_on with
  | _ n ih =>
    intro a
    rw [natDigits_eq]
    by_cases h10 : n < 10
    · rw [if_pos h10]
      simp only [pyDigitsVal, List.foldl_cons, List.foldl_nil, List.length_singleton]
      rw [natDigitChar_toNat h10, if_neg (by omega)]
      omega
    · rw [if_neg h10]
      have hd : n / 10 < n := Nat.div_lt_self (by omega) (by omega)
      have hm : n % 10 < 10 := Nat.mod_lt n (by omega)
      simp only [pyDigitsVal, List.foldl_append, List.foldl_cons, List.foldl_nil,
        List.length_append, List.length_singleton]
      rw [natDigitChar_toNat hm, if_neg (by omega)]
      have hv := ih (n / 10) hd a
      simp only [pyDigitsVal] at hv
      rw [hv]
      have hnm : 10 * (n / 10) + n % 10 = n := Nat.div_add_mod n 10
      calc 10 * (a * 10 ^ (natDigits (n / 10)).length + n / 10) + (48 + n % 10 - 48)
          = a * 10 ^ ((natDigits (n / 10)).length + 1) + (10 * (n / 10) + n % 10) := by
            rw [pow_succ]; ring_nf; omega
        _ = a * 10 ^ ((natDigits (n / 10)).length + 1) + n := by rw [hnm]

theorem pyDigitsRest_of_digits : ∀ cs : List Char,
    (∀ c ∈ cs, 48 ≤ c.toNat ∧ c.toNat ≤ 57) → pyDigitsRest cs = true := by
  intro cs
  induction cs with
  | nil => intro _; rfl
  | cons c rest ih =>
    intro h
    have hc := h c (by simp)
    simp only [pyDigitsRest]
    rw [if_neg (by omega)]
    simp only [Bool.and_eq_true]
    refine ⟨by simp [isAsciiDigit]; omega, ih fun x hx => h x (by simp [hx])⟩

theorem pyDigitsOk_natDigits (n : Nat) : pyDigitsOk (natDigits n) = true := by
  rcases h : natDigits n with _ | ⟨c, rest⟩
  · exact absurd h (natDigits_ne_nil n)
  · have hb := natDigits_bounds n
    rw [h] at hb
    have hc := hb c (by simp)
    rw [pyDigitsOk]
    simp only [Bool.and_eq_true]
    exact ⟨by simp [isAsciiDigit]; omega,
      pyDigitsRest_of_digits rest fun x hx => hb x (by simp [hx])⟩

theorem dropWhile_eq_self_of_none {p : Char → Bool} : ∀ cs : List Char,
    (∀ c ∈ cs, p c = false) → cs.dropWhile p = cs := by
  intro cs h
  cases cs with
  | nil => rfl
  | cons c rest => simp [List.dropWhile_cons, h c (by simp)]

theorem pyStrip_of_digits (cs : List Char)
    (h : ∀ c ∈ cs, 48 ≤ c.toNat ∧ c.toNat ≤ 57) : pyStrip cs = cs := by
  have hns : ∀ c ∈ cs, isPySpace c = false := by
    intro c hc
    have := h c hc
    simp [isPySpace]
    omega
  rw [pyStrip, dropWhile_eq_self_of_none cs hns,
    dropWhile_eq_self_of_none cs.reverse (fun c hc => hns c (List.mem_reverse.mp hc)),
    List.reverse_reverse]

theorem parsePyInt_natRepr (n : Nat) : parsePyInt (natRepr n) = some (n : Int) := by
  have htl : (natRepr n).toList = natDigits n := rfl
  rw [parsePyInt, htl, pyStrip_of_digits _ (natDigits_bounds n)]
  rcases h : natDigits n with _ | ⟨c, rest⟩
  · exact absurd h (natDigits_ne_nil n)
  · have hb := natDigits_bounds n
    rw [h] at hb
    simp only [parsePyCore]
    have hc := hb c (by simp)
    have hplus : ¬ c = '+' := by
      intro he
      subst he
      revert hc
      decide
    have hminus : ¬ c = '-' := by
      intro he
      subst he
      revert hc
      decide
    rw [if_neg hplus, if_neg hminus]
    have hok : pyDigitsOk (c :: rest) = true := by rw [← h]; exact pyDigitsOk_natDigits n
    rw [if_pos hok]
    have hv := pyDigitsVal_natDigits n 0
    rw [h] at hv
    simp only [Nat.zero_mul, Nat.zero_add] at hv
    rw [hv]
    rfl

/-! ## Lemmas: the worksheet store -/

theorem findSheet_append (s l : Store) (t : String) :
    findSheet (s ++ l) t =
      match findSheet s t with
      | some ws => some ws
      | none => findSheet l t := by
  induction s with
  | nil => simp [findSheet]
  | cons p rest ih =>
    rcases p with ⟨t0, ws0⟩
    by_cases h : t0 = t
    · simp [findSheet, h]
    · simp [findSheet, h, ih]

theorem findSheet_updateSheet_self (t : String) (ws2 : Sheet) : ∀ s : Store,
    (findSheet s t).isSome → findSheet (updateSheet s t ws2) t = some ws2 := by
  intro s
  induction s with
  | nil => simp [findSheet]
  | cons p rest ih =>
    rcases p with ⟨t0, ws0⟩
    by_cases h : t0 = t
    · simp [findSheet, updateSheet, h]
    · simp [findSheet, updateSheet, h]
      exact ih

theorem findSheet_updateSheet_ne (t t2 : String) (ws2 : Sheet) (hne : t2 ≠ t) :
    ∀ s : Store, findSheet (updateSheet s t ws2) t2 = findSheet s t2 := by
  intro s
  induction s with
  | nil => simp [updateSheet]
  | cons p rest ih =>
    rcases p with ⟨t0, ws0⟩
    by_cases h : t0 = t
    · subst h
      simp [findSheet, updateSheet, Ne.symm hne]
    · simp [findSheet, updateSheet, h, ih]

theorem updateSheet_append_self (t : String) (w ws2 : Sheet) : ∀ s : Store,
    findSheet s t = none → updateSheet (s ++ [(t, w)]) t ws2 = s ++ [(t, ws2)] := by
  intro s
  induction s with
  | nil => simp [updateSheet]
  | cons p rest ih =>
    rcases p with ⟨t0, ws0⟩
    intro hf
    rw [findSheet] at hf
    by_cases h : t0 = t
    · rw [if_pos h] at hf
      exact absurd hf (by simp)
    · rw [if_neg h] at hf
      simp only [List.cons_append, updateSheet, if_neg h]
      rw [List.append_eq, ih hf]

/-! ## Lemmas: aggregation -/

theorem rowStat_eq_specRowStat (r : Row) : rowStat r = specRowStat r := by
  rw [rowStat, specRowStat]
  rcases h2 : r.get? 2 with _ | s2
  · simp [h2]
  · rcases hp2 : parsePyInt s2 with _ | c
    · simp [h2, hp2]
    · rcases h3 : r.get? 3 with _ | s3
      · simp [h2, hp2, h3]
      · rcases hp3 : parsePyInt s3 with _ | a <;> simp [h2, hp2, h3, hp3]

theorem sumStats_eq_spec (rows : List Row) :
    sumStats rows = rows.foldl (fun acc r => addPair acc (specRowStat r)) (0, 0) := by
  rw [sumStats]
  have : (fun (acc : Int × Int) r => addPair acc (rowStat r)) =
      fun acc r => addPair acc (specRowStat r) := by
    funext acc r
    rw [rowStat_eq_specRowStat]
  rw [this]

theorem sheetStats_eq_spec (ws : Sheet) : sheetStats ws = specSheetStats ws := by
  rw [sheetStats, specSheetStats]
  by_cases h : ws.length ≤ 1
  · rw [if_pos h, List.drop_eq_nil_of_le h]
    rfl
  · rw [if_neg h, sumStats_eq_spec]

theorem sumStats_append_one (rows : List Row) (r : Row) :
    sumStats (rows ++ [r]) = addPair (sumStats rows) (rowStat r) := by
  rw [sumStats, sumStats, List.foldl_append]
  rfl

theorem addPair_zero (x : Int × Int) : addPair (0, 0) x = x := by
  rcases x with ⟨a, b⟩
  simp [addPair]

theorem sumStats_singleton (r : Row) : sumStats [r] = rowStat r := by
  rw [sumStats, List.foldl_cons, List.foldl_nil]
  exact addPair_zero _

theorem get_today_stats_snd (today : String) (s : Store) :
    (get_today_stats today s).2 = sumStats ((get_today_worksheet today s).2.drop 1) := by
  rw [get_today_stats]
  by_cases h : (get_today_worksheet today s).2.length ≤ 1
  · rw [List.drop_eq_nil_of_le h]
    simp [h]
    rfl
  · simp [h]

theorem sheetStats_cons (hdr : Row) (rows : List Row) :
    sheetStats (hdr :: rows) = sumStats rows := by
  rw [sheetStats]
  by_cases h : rows = []
  · subst h
    simp
    rfl
  · rw [if_neg (by simp [List.length_pos]; exact h)]
    simp

theorem rowStat_saved_row (ts d det : String) (k m : Nat) :
    rowStat [ts, d, natRepr k, natRepr m, det] = ((k : Int), (m : Int)) := by
  rw [rowStat]
  simp only [List.get?_cons_succ, List.get?_cons_zero]
  rw [parsePyInt_natRepr, parsePyInt_natRepr]

/-! ## The claims -/

/-- Claim C4: for every contents of today's Day Ledger, `today_stats`
returns the sums of the count and amount fields over all non-header rows,
where any row whose count or amount field is missing or does not parse as
an integer is skipped rather than causing a failure; in particular a
ledger with one malformed row and one valid row `{count: 2, amount: 600}`
yields `(2, 600)`. -/
theorem C4_today_stats_skips_malformed_rows :
    (∀ today s, (get_today_stats today s).2 =
      specSheetStats (get_today_worksheet today s).2) ∧
    (get_today_stats "2025-11-21"
      [("2025-11-21", [headerRow,
        ["12:00:00", "2025-11-21", "abc", "600", ""],
        ["12:01:00", "2025-11-21", "2", "600", "300円×2"]])]).2 = (2, 600) := by
  constructor
  · intro today s
    rw [get_today_stats_snd, ← sheetStats_eq_spec, sheetStats]
    by_cases h : (get_today_worksheet today s).2.length ≤ 1
    · rw [if_pos h, List.drop_eq_nil_of_le h]
      rfl
    · rw [if_neg h]
  · decide

/-- Claim C5: for the empty basket, `confirm_sale` fails with
`EmptyBasketError`, today's ledger row count is unchanged, and the basket
remains empty (no mutation of any state). -/
theorem C5_confirm_sale_empty_basket_no_mutation (today ts : String) (s : Store) :
    confirm_sale today ts [] s = (([], s), .emptyBasket) ∧
    txRowCount today (confirm_sale today ts [] s).1.2 = txRowCount today s := by
  exact ⟨rfl, rfl⟩

/-- Claim C9: special-discount authorization succeeds exactly when the
entered password equals the configured password (a pure string equality
check), and the authorization-failure notice is surfaced exactly when the
entered password is non-empty and differs from the configured password. -/
theorem C9_discount_auth_pure_equality (pwd cfg : String) :
    ((special_discount_panel pwd cfg).1 = true ↔ pwd = cfg) ∧
    ((special_discount_panel pwd cfg).2 = true ↔ (pwd ≠ "" ∧ pwd ≠ cfg)) := by
  rw [special_discount_panel]
  by_cases h1 : pwd = cfg <;> by_cases h2 : pwd = "" <;> simp_all

/-- Claim C8: `confirm_sale` produces the identical `detail` string for
any two baskets that are permutations of each other (the same multiset of
prices); in particular basket `[300, 200, 300]` yields the detail string
`"200円×1, 300円×2"`. -/
theorem C8_detail_is_permutation_invariant (b1 b2 : List Nat) (h : b1.Perm b2) :
    detailString b1 = detailString b2 ∧
    detailString [300, 200, 300] = "200円×1, 300円×2" := by
  refine ⟨?_, by decide⟩
  simp only [detailString]
  have hperm : (List.insertionSort (· ≤ ·) b1.dedup).Perm
      (List.insertionSort (· ≤ ·) b2.dedup) :=
    ((List.perm_insertionSort _ _).trans h.dedup).trans (List.perm_insertionSort _ _).symm
  have heq : List.insertionSort (· ≤ ·) b1.dedup = List.insertionSort (· ≤ ·) b2.dedup :=
    List.eq_of_perm_of_sorted hperm (List.sorted_insertionSort _ _)
      (List.sorted_insertionSort _ _)
  rw [heq]
  congr 1
  exact List.map_congr_left fun p _ => by rw [h.count_eq]

/-- Claim C6 counterexample: on a store where today's ledger is absent
(zero Transaction Rows), `void_last_sale` does report the empty-ledger
error, but it does not leave the ledger unchanged: it creates today's
ledger with its header row. -/
theorem C6_counterexample_absent_ledger_created :
    (cancel_last_transaction "2025-11-21" []).2 = .emptyLedger ∧
    findSheet ([] : Store) "2025-11-21" = none ∧
    findSheet (cancel_last_transaction "2025-11-21" []).1 "2025-11-21" =
      some [headerRow] := by
  decide

/-- Claim C6 (amended): if today's Day Ledger exists and contains zero
Transaction Rows, `void_last_sale` fails with `EmptyLedgerError` and
leaves the store unchanged; if today's ledger is absent it also fails
with `EmptyLedgerError`, but first creates the ledger with only its
header row; otherwise it deletes exactly the last (highest-index) row,
touching no other table; and it never affects the in-memory basket. -/
theorem C6_void_last_sale_amended (today t : String) (s : Store) (st : SessionState) :
    (findSheet s today = none →
      cancel_last_transaction today s = (s ++ [(today, [headerRow])], .emptyLedger)) ∧
    (todaysValues today s ≠ [] → (todaysValues today s).length ≤ 1 →
      cancel_last_transaction today s = (s, .emptyLedger)) ∧
    (1 < (todaysValues today s).length →
      (cancel_last_transaction today s).2 = .ok ∧
      findSheet (cancel_last_transaction today s).1 today =
        some ((todaysValues today s).dropLast)) ∧
    (t ≠ today → findSheet (cancel_last_transaction today s).1 t = findSheet s t) ∧
    (step today st .voidLast).basket = st.basket := by
  rcases hf : findSheet s today with _ | ws
  · refine ⟨fun _ => ?_, ?_, ?_, ?_, rfl⟩
    · rw [cancel_last_transaction]
      simp [get_today_worksheet, hf]
    · intro hne
      exact absurd (by simp [todaysValues, hf]) hne
    · intro hlt
      rw [todaysValues, hf] at hlt
      simp at hlt
    · intro hne
      rw [cancel_last_transaction]
      simp only [get_today_worksheet, hf]
      rw [if_pos (by simp [headerRow])]
      rw [findSheet_append]
      rcases hft : findSheet s t with _ | w
      · simp [findSheet, Ne.symm hne]
      · simp
  · have hv : todaysValues today s = ws := by rw [todaysValues, hf]; rfl
    rw [hv]
    by_cases hlen : ws.length ≤ 1
    · refine ⟨fun hc => absurd hc (by simp), fun _ _ => ?_,
        fun hlt => by omega, fun hne => ?_, rfl⟩
      · rw [cancel_last_transaction]
        simp [get_today_worksheet, hf, hlen]
      · rw [cancel_last_transaction]
        simp [get_today_worksheet, hf, hlen]
    · refine ⟨fun hc => absurd hc (by simp), fun _ h => absurd h hlen,
        fun _ => ⟨?_, ?_⟩, fun hne => ?_, rfl⟩
      · rw [cancel_last_transaction]
        simp [get_today_worksheet, hf, hlen]
      · rw [cancel_last_transaction]
        simp only [get_today_worksheet, hf]
        rw [if_neg (by simpa using hlen)]
        exact findSheet_updateSheet_self today ws.dropLast s (by rw [hf]; rfl)
      · rw [cancel_last_transaction]
        simp only [get_today_worksheet, hf]
        by_cases h1 : ws.length ≤ 1
        · exact absurd h1 hlen
        · rw [if_neg (by simpa using h1)]
          exact findSheet_updateSheet_ne today t ws.dropLast hne s

/-- Claim C1: for every non-empty basket `B` (over any well-formed store),
`confirm_sale` appends exactly one Transaction Row to today's Day Ledger,
whose `item_count` cell is `len(B)`, whose `total_amount` cell is
`sum(B)`, and whose `detail` cell is `detailString B` (the basket grouped
into a multiset, groups sorted by ascending price, each rendered as
`"<price>円×<count>"` joined by `", "`); afterwards the basket is empty,
and today's totals have grown by exactly `(len(B), sum(B))`. -/
theorem C1_confirm_sale_appends_exactly_one_row (today ts : String) (b : List Nat)
    (s : Store) (hb : b ≠ []) (hwf : wfToday today s = true) :
    (confirm_sale today ts b s).2 = .ok ∧
    (confirm_sale today ts b s).1.1 = [] ∧
    txRows today (confirm_sale today ts b s).1.2 =
      txRows today s ++ [[ts, today, natRepr b.length, natRepr b.sum, detailString b]] ∧
    (get_today_stats today (confirm_sale today ts b s).1.2).2 =
      addPair (get_today_stats today s).2 ((b.length : Int), (b.sum : Int)) := by
  have hbe : b.isEmpty = false := by
    cases b with
    | nil => exact absurd rfl hb
    | cons x xs => rfl
  have hcs : confirm_sale today ts b s =
      (([], (updateSheet (get_today_worksheet today s).1 today
        ((get_today_worksheet today s).2 ++
          [[ts, today, natRepr b.length, natRepr b.sum, detailString b]]))), .ok) := by
    rw [confirm_sale, save_transaction, hbe]
    rfl
  rw [hcs]
  refine ⟨rfl, rfl, ?_, ?_⟩
  · rcases hf : findSheet s today with _ | ws
    · have hgw : get_today_worksheet today s = (s ++ [(today, [headerRow])], [headerRow]) := by
        rw [get_today_worksheet, hf]
      rw [hgw]
      have hupd := updateSheet_append_self today [headerRow]
        ([headerRow] ++ [[ts, today, natRepr b.length, natRepr b.sum, detailString b]]) s hf
      simp only [hupd]
      rw [txRows, txRows, hf, findSheet_append, hf]
      simp [findSheet]
    · have hwsne : ws ≠ [] := by
        rw [wfToday, hf] at hwf
        simpa [List.isEmpty_iff] using hwf
      have hgw : get_today_worksheet today s = (s, ws) := by
        rw [get_today_worksheet, hf]
      rw [hgw]
      rw [txRows, txRows, hf,
        findSheet_updateSheet_self today _ s (by rw [hf]; rfl)]
      rcases ws with _ | ⟨w0, ws0⟩
      · exact absurd rfl hwsne
      · simp
  · rcases hf : findSheet s today with _ | ws
    · have hgw : get_today_worksheet today s = (s ++ [(today, [headerRow])], [headerRow]) := by
        rw [get_today_worksheet, hf]
      rw [hgw]
      have hupd := updateSheet_append_self today [headerRow]
        ([headerRow] ++ [[ts, today, natRepr b.length, natRepr b.sum, detailString b]]) s hf
      simp only [hupd]
      rw [get_today_stats_snd, get_today_stats_snd, hgw]
      have hfa : findSheet (s ++ [(today, [headerRow] ++
          [[ts, today, natRepr b.length, natRepr b.sum, detailString b]])]) today =
          some ([headerRow] ++
            [[ts, today, natRepr b.length, natRepr b.sum, detailString b]]) := by
        rw [findSheet_append, hf]
        simp [findSheet]
      rw [get_today_worksheet, hfa]
      simp only [List.cons_append, List.nil_append, List.drop_succ_cons, List.drop_nil,
        List.drop_zero]
      rw [sumStats_singleton, rowStat_saved_row,
        show sumStats [] = ((0 : Int), (0 : Int)) from rfl, addPair_zero]
    · have hwsne : ws ≠ [] := by
        rw [wfToday, hf] at hwf
        simpa [List.isEmpty_iff] using hwf
      have hgw : get_today_worksheet today s = (s, ws) := by
        rw [get_today_worksheet, hf]
      rw [hgw]
      rw [get_today_stats_snd, get_today_stats_snd, hgw]
      rw [get_today_worksheet,
        findSheet_updateSheet_self today _ s (by rw [hf]; rfl)]
      rcases ws with _ | ⟨w0, ws0⟩
      · exact absurd rfl hwsne
      · simp only [List.cons_append, List.drop_succ_cons, List.drop_zero, List.drop_one,
          List.tail_cons]
        rw [sumStats_append_one, rowStat_saved_row]

/-- Claim C2: for every non-empty basket and every starting ledger state,
`confirm_sale` followed immediately by `void_last_sale` leaves today's
ledger row count equal to its value before the confirm, and leaves the
basket empty (the basket contents are not restored by the void). -/
theorem cancel_of_found (today : String) (s : Store) (ws : Sheet)
    (hf : findSheet s today = some ws) :
    cancel_last_transaction today s =
      if ws.length ≤ 1 then (s, .emptyLedger)
      else (updateSheet s today ws.dropLast, .ok) := by
  rw [cancel_last_transaction]
  simp only [get_today_worksheet, hf]

/-- Claim C2: for every non-empty basket and every starting ledger state,
`confirm_sale` followed immediately by `void_last_sale` leaves today's
ledger row count equal to its value before the confirm, and leaves the
basket empty: the confirm clears the basket and the void never touches
any basket. -/
theorem C2_confirm_then_void_restores_row_count (today ts : String) (b : List Nat)
    (s : Store) (st : SessionState) (hb : b ≠ []) :
    txRowCount today
      (cancel_last_transaction today (confirm_sale today ts b s).1.2).1 =
      txRowCount today s ∧
    (confirm_sale today ts b s).1.1 = [] ∧
    (step today st .voidLast).basket = st.basket := by
  have hbe : b.isEmpty = false := by
    cases b with
    | nil => exact absurd rfl hb
    | cons x xs => rfl
  have hcs : (confirm_sale today ts b s).1.2 =
      updateSheet (get_today_worksheet today s).1 today
        ((get_today_worksheet today s).2 ++
          [[ts, today, natRepr b.length, natRepr b.sum, detailString b]]) := by
    rw [confirm_sale, save_transaction, hbe]
    rfl
  have hbk : (confirm_sale today ts b s).1.1 = [] := by
    rw [confirm_sale, hbe]
    rfl
  refine ⟨?_, hbk, rfl⟩
  rcases hf : findSheet s today with _ | ws
  · have hgw : get_today_worksheet today s = (s ++ [(today, [headerRow])], [headerRow]) := by
      rw [get_today_worksheet, hf]
    have hupd := updateSheet_append_self today [headerRow]
      ([headerRow] ++ [[ts, today, natRepr b.length, natRepr b.sum, detailString b]]) s hf
    have hS1 : (confirm_sale today ts b s).1.2 =
        s ++ [(today, [headerRow,
          [ts, today, natRepr b.length, natRepr b.sum, detailString b]])] := by
      rw [hcs, hgw]
      simpa using hupd
    have hfa : findSheet (s ++ [(today, [headerRow,
        [ts, today, natRepr b.length, natRepr b.sum, detailString b]])]) today =
        some [headerRow, [ts, today, natRepr b.length, natRepr b.sum, detailString b]] := by
      rw [findSheet_append, hf]
      simp [findSheet]
    rw [hS1, cancel_of_found today _ _ hfa, if_neg (by simp)]
    rw [txRowCount, txRowCount, txRows, txRows, hf,
      findSheet_updateSheet_self today _ _ (by rw [hfa]; rfl)]
    rfl
  · have hgw : get_today_worksheet today s = (s, ws) := by
      rw [get_today_worksheet, hf]
    have hS1 : (confirm_sale today ts b s).1.2 = updateSheet s today
        (ws ++ [[ts, today, natRepr b.length, natRepr b.sum, detailString b]]) := by
      rw [hcs, hgw]
    have hfu : findSheet (updateSheet s today
        (ws ++ [[ts, today, natRepr b.length, natRepr b.sum, detailString b]])) today =
        some (ws ++ [[ts, today, natRepr b.length, natRepr b.sum, detailString b]]) :=
      findSheet_updateSheet_self today _ s (by rw [hf]; rfl)
    rw [hS1, cancel_of_found today _ _ hfu]
    by_cases hlen : (ws ++
        [[ts, today, natRepr b.length, natRepr b.sum, detailString b]]).length ≤ 1
    · rw [if_pos hlen]
      have hws : ws = [] := by
        simp only [List.length_append, List.length_singleton] at hlen
        exact List.length_eq_zero.mp (by omega)
      subst hws
      rw [txRowCount, txRowCount, txRows, txRows, hf, hfu]
      rfl
    · rw [if_neg hlen]
      rw [txRowCount, txRowCount, txRows, txRows, hf,
        findSheet_updateSheet_self today _ _ (by rw [hfu]; rfl)]
      rw [List.dropLast_concat]

/-- Claim C10: during aggregation in `today_stats` and `period_stats`,
each ledger row contributes to the totals all-or-nothing: if a row's count
field parses as an integer but its amount field is missing or does not
parse, the row contributes neither to the total count nor to the total
amount — the partially parsed count is never added. Stated for the row
contribution itself, for the shared summation loop, and for both
aggregation entry points on a ledger containing such a row. -/
theorem C10_row_contribution_is_all_or_nothing (r : Row) (c : Int) (rows : List Row)
    (today title : String) (hdr : Row) (n : Nat)
    (hc : (r.get? 2).bind parsePyInt = some c)
    (ha : (r.get? 3).bind parsePyInt = none) :
    rowStat r = (0, 0) ∧
    sumStats (rows ++ [r]) = sumStats rows ∧
    (get_today_stats today [(today, hdr :: (rows ++ [r]))]).2 =
      (get_today_stats today [(today, hdr :: rows)]).2 ∧
    get_last_n_days_stats n [(title, hdr :: (rows ++ [r]))] =
      get_last_n_days_stats n [(title, hdr :: rows)] := by
  rw [List.get?_eq_getElem?] at hc ha
  rcases h2 : r[2]? with _ | s2
  · rw [h2] at hc
    exact absurd hc (by simp)
  · rw [h2, Option.some_bind] at hc
    have h0 : rowStat r = (0, 0) := by
      rcases h3 : r[3]? with _ | s3
      · simp [rowStat, h2, hc, h3]
      · rw [h3, Option.some_bind] at ha
        simp [rowStat, h2, hc, h3, ha]
    have hsum : sumStats (rows ++ [r]) = sumStats rows := by
      rw [sumStats_append_one, h0]
      rcases hss : sumStats rows with ⟨u, v⟩
      simp [addPair]
    have hone : ∀ rs : List Row, (get_today_stats today [(today, hdr :: rs)]).2 =
        sumStats rs := by
      intro rs
      rw [get_today_stats_snd]
      have hfs : findSheet [(today, hdr :: rs)] today = some (hdr :: rs) := by
        simp [findSheet]
      rw [get_today_worksheet, hfs]
      simp
    have hsheet : ∀ rs : List Row, sheetStats (hdr :: rs) = sumStats rs :=
      fun rs => sheetStats_cons hdr rs
    refine ⟨h0, hsum, by rw [hone, hone, hsum], ?_⟩
    rcases hp : date_fromisoformat title with _ | d
    · simp [get_last_n_days_stats, hp]
    · simp only [get_last_n_days_stats, List.filterMap_cons, List.filterMap_nil, hp,
        Option.map_some', List.isEmpty_cons, Bool.false_eq_true, if_false]
      have hsing : ∀ ws : Sheet, List.insertionSort dateFst [(d, ws)] = [(d, ws)] :=
        fun ws => rfl
      rw [hsing, hsing]
      have hslice : ∀ ws : Sheet, pySliceLastN n [(d, ws)] = [(d, ws)] := by
        intro ws
        rw [pySliceLastN]
        by_cases hn : n = 0
        · rw [if_pos hn]
        · rw [if_neg hn]
          simp only [List.length_singleton]
          rw [show 1 - n = 0 by omega, List.drop_zero]
      rw [hslice, hslice]
      simp only [List.foldl_cons, List.foldl_nil, List.head?_cons, List.getLast?_singleton]
      rw [sheetStats_cons, sheetStats_cons, hsum]

/-- Claim C3: for every store contents and every `n ≥ 1`, `period_stats(n)`
considers exactly the tables whose names parse as ISO calendar dates
(ignoring all others), sorts them ascending by date, takes the last `n`
(or all if fewer exist), sums `item_count`/`total_amount` over their rows
skipping malformed rows, and returns `(0, 0, none, none)` when zero dated
tables exist, else the summed totals together with the first and last
selected dates as ISO strings — i.e. the code refines the spec-side
formulation `specPeriodStats`. -/
theorem C3_period_stats_refines_spec (n : Nat) (s : Store) (hn : 1 ≤ n) :
    get_last_n_days_stats n s = specPeriodStats n s := by
  simp only [get_last_n_days_stats, specPeriodStats]
  rcases hd : s.filterMap (fun tw => (date_fromisoformat tw.1).map fun d => (d, tw.2))
    with _ | ⟨x, xs⟩
  · rw [hd]
    simp
  · rw [hd]
    simp only [List.isEmpty_cons, Bool.false_eq_true, if_false]
    have hlen : (List.insertionSort dateFst (x :: xs)).length = xs.length + 1 := by
      have hperm := (List.perm_insertionSort dateFst (x :: xs)).length_eq
      simpa using hperm
    have hslice : pySliceLastN n (List.insertionSort dateFst (x :: xs)) =
        (List.insertionSort dateFst (x :: xs)).drop
          ((List.insertionSort dateFst (x :: xs)).length -
            min n (List.insertionSort dateFst (x :: xs)).length) := by
      rw [pySliceLastN, if_neg (by omega)]
      congr 1
      omega
    rw [hslice]
    have hfold : (fun (acc : Int × Int) (dw : PDate × Sheet) =>
        addPair acc (sheetStats dw.2)) =
        fun acc dw => addPair acc (specSheetStats dw.2) := by
      funext acc dw
      rw [sheetStats_eq_spec]
    rw [hfold]
    have hselne : (List.insertionSort dateFst (x :: xs)).drop
        ((List.insertionSort dateFst (x :: xs)).length -
          min n (List.insertionSort dateFst (x :: xs)).length) ≠ [] := by
      intro h
      apply_fun List.length at h
      rw [List.length_drop] at h
      simp only [List.length_nil] at h
      omega
    rcases hcons : (List.insertionSort dateFst (x :: xs)).drop
        ((List.insertionSort dateFst (x :: xs)).length -
          min n (List.insertionSort dateFst (x :: xs)).length) with _ | ⟨y, ys⟩
    · exact absurd hcons hselne
    · have hlast : ((y :: ys).getLast?).isSome = true := rfl
      rcases hl : (y :: ys).getLast? with _ | l
      · rw [hl] at hlast
        simp at hlast
      · simp [hl]

theorem ledgerState_found (today : String) (s : Store) (ws : Sheet)
    (hf : findSheet s today = some ws) :
    ledgerState today s = if ws.length ≤ 1 then .headerOnly else .hasRows := by
  simp only [ledgerState, hf]

theorem headerPresent_found (today : String) (s : Store) (rest : List Row)
    (hf : findSheet s today = some (headerRow :: rest)) :
    headerPresent today s = true := by
  simp [headerPresent, hf]

theorem confirm_store_of_nonempty (today ts : String) (b : List Nat) (s : Store)
    (hb : b.isEmpty = false) :
    (confirm_sale today ts b s).1.2 =
      updateSheet (get_today_worksheet today s).1 today
        ((get_today_worksheet today s).2 ++
          [[ts, today, natRepr b.length, natRepr b.sum, detailString b]]) := by
  rw [confirm_sale, save_transaction, hb]
  rfl

theorem step_findSheet_today (today : String) (st : SessionState) (op : Op) :
    findSheet (step today st op).store today = findSheet st.store today ∨
    (findSheet st.store today = none ∧
      (findSheet (step today st op).store today = some [headerRow] ∨
        ∃ row, findSheet (step today st op).store today = some [headerRow, row])) ∨
    (∃ ws row, findSheet st.store today = some ws ∧
      findSheet (step today st op).store today = some (ws ++ [row])) ∨
    (op = .voidLast ∧ ∃ ws, findSheet st.store today = some ws ∧ 2 ≤ ws.length ∧
      findSheet (step today st op).store today = some ws.dropLast) := by
  cases op with
  | addItem p => exact Or.inl rfl
  | resetBasket => exact Or.inl rfl
  | readPeriodStats m => exact Or.inl rfl
  | readTodayStats =>
    rcases hf : findSheet st.store today with _ | ws
    · have hgw : get_today_worksheet today st.store =
          (st.store ++ [(today, [headerRow])], [headerRow]) := by
        rw [get_today_worksheet, hf]
      have hst : (step today st .readTodayStats).store =
          st.store ++ [(today, [headerRow])] := by
        simp only [step, get_today_stats, hgw]
        rfl
      rw [hst]
      refine Or.inr (Or.inl ⟨rfl, Or.inl ?_⟩)
      rw [findSheet_append, hf]
      simp [findSheet]
    · have hst : (step today st .readTodayStats).store = st.store := by
        simp only [step, get_today_stats, get_today_worksheet, hf]
        split <;> rfl
      rw [hst]
      exact Or.inl hf
  | confirmSale ts =>
    rcases hbk : st.basket with _ | ⟨b0, bs⟩
    · have hst : (step today st (.confirmSale ts)).store = st.store := by
        simp only [step, confirm_sale, hbk]
        rfl
      rw [hst]
      exact Or.inl rfl
    · have hbe : st.basket.isEmpty = false := by
        rw [hbk]
        rfl
      have h1 := confirm_store_of_nonempty today ts st.basket st.store hbe
      have hstep : (step today st (.confirmSale ts)).store =
          (confirm_sale today ts st.basket st.store).1.2 := rfl
      rcases hf : findSheet st.store today with _ | ws
      · have hgw : get_today_worksheet today st.store =
            (st.store ++ [(today, [headerRow])], [headerRow]) := by
          rw [get_today_worksheet, hf]
        rw [hgw] at h1
        have hupd := updateSheet_append_self today [headerRow]
          ([headerRow] ++ [[ts, today, natRepr st.basket.length, natRepr st.basket.sum,
            detailString st.basket]]) st.store hf
        rw [hupd] at h1
        refine Or.inr (Or.inl ⟨rfl, Or.inr ⟨[ts, today, natRepr st.basket.length,
          natRepr st.basket.sum, detailString st.basket], ?_⟩⟩)
        rw [hstep, h1, findSheet_append, hf]
        simp [findSheet]
      · have hgw : get_today_worksheet today st.store = (st.store, ws) := by
          rw [get_today_worksheet, hf]
        rw [hgw] at h1
        refine Or.inr (Or.inr (Or.inl ⟨ws, [ts, today, natRepr st.basket.length,
          natRepr st.basket.sum, detailString st.basket], rfl, ?_⟩))
        rw [hstep, h1]
        exact findSheet_updateSheet_self today _ st.store (by rw [hf]; rfl)
  | voidLast =>
    rcases hf : findSheet st.store today with _ | ws
    · have hgw : get_today_worksheet today st.store =
          (st.store ++ [(today, [headerRow])], [headerRow]) := by
        rw [get_today_worksheet, hf]
      have hst : (step today st .voidLast).store = st.store ++ [(today, [headerRow])] := by
        simp only [step, cancel_last_transaction, hgw]
        rfl
      rw [hst]
      refine Or.inr (Or.inl ⟨rfl, Or.inl ?_⟩)
      rw [findSheet_append, hf]
      simp [findSheet]
    · have hcan := cancel_of_found today st.store ws hf
      by_cases hl : ws.length ≤ 1
      · have hst : (step today st .voidLast).store = st.store := by
          simp only [step, hcan, if_pos hl]
        rw [hst]
        exact Or.inl hf
      · have hst : (step today st .voidLast).store =
            updateSheet st.store today ws.dropLast := by
          simp only [step, hcan, if_neg hl]
        rw [hst]
        refine Or.inr (Or.inr (Or.inr ⟨rfl, ws, rfl, by omega, ?_⟩))
        exact findSheet_updateSheet_self today _ st.store (by rw [hf]; rfl)

theorem step_rank_allowed (today : String) (st : SessionState) (op : Op) :
    (ledgerState today st.store).rank ≤
        (ledgerState today (step today st op).store).rank ∨
      (op = .voidLast ∧ ledgerState today st.store = .hasRows ∧
        ledgerState today (step today st op).store = .headerOnly) := by
  rcases step_findSheet_today today st op with h1 | ⟨hf, h2⟩ | ⟨ws, row, hf, hf2⟩ |
    ⟨hop, ws, hf, hlen, hf2⟩
  · left
    have heq : ledgerState today (step today st op).store = ledgerState today st.store := by
      rw [ledgerState, ledgerState, h1]
    rw [heq]
  · left
    have hb : ledgerState today st.store = .absent := by
      rw [ledgerState, hf]
    rw [hb]
    exact Nat.zero_le _
  · left
    have hb := ledgerState_found today st.store ws hf
    have ha := ledgerState_found today (step today st op).store (ws ++ [row]) hf2
    rw [hb, ha]
    by_cases hl : ws.length ≤ 1
    · rw [if_pos hl]
      by_cases hl2 : (ws ++ [row]).length ≤ 1
      · rw [if_pos hl2]
      · rw [if_neg hl2]
        decide
    · rw [if_neg hl, if_neg (by simp only [List.length_append, List.length_singleton]; omega)]
  · have hb : ledgerState today st.store = .hasRows := by
      rw [ledgerState_found today st.store ws hf, if_neg (by omega)]
    have ha := ledgerState_found today (step today st op).store ws.dropLast hf2
    by_cases hl2 : ws.dropLast.length ≤ 1
    · right
      exact ⟨hop, hb, by rw [ha, if_pos hl2]⟩
    · left
      rw [hb, ha, if_neg hl2]

theorem step_header_preserved (today : String) (st : SessionState) (op : Op)
    (h : headerPresent today st.store = true) :
    headerPresent today (step today st op).store = true := by
  obtain ⟨rest, hf⟩ : ∃ rest, findSheet st.store today = some (headerRow :: rest) := by
    rcases hq : findSheet st.store today with _ | ws
    · rw [headerPresent] at h
      simp only [hq] at h
      exact absurd h (by simp)
    · rcases ws with _ | ⟨r0, rest⟩
      · rw [headerPresent] at h
        simp only [hq] at h
        exact absurd h (by simp)
      · rw [headerPresent] at h
        simp only [hq, decide_eq_true_eq] at h
        exact ⟨rest, by rw [h]⟩
  rcases step_findSheet_today today st op with h1 | ⟨hn, _⟩ | ⟨ws, row, hfs, hf2⟩ |
    ⟨_, ws, hfs, hlen, hf2⟩
  · rw [headerPresent, h1, hf]
    simp
  · rw [hn] at hf
    exact absurd hf (by simp)
  · rw [hfs] at hf
    injection hf with hws
    subst hws
    exact headerPresent_found today _ _ (by rw [hf2]; rfl)
  · rw [hfs] at hf
    injection hf with hws
    subst hws
    rcases rest with _ | ⟨r1, rest1⟩
    · simp at hlen
    · have hdrop : (headerRow :: r1 :: rest1).dropLast =
          headerRow :: (r1 :: rest1).dropLast := rfl
      rw [hdrop] at hf2
      exact headerPresent_found today _ _ hf2

theorem step_creation_installs_header (today : String) (st : SessionState) (op : Op)
    (hb : ledgerState today st.store = .absent)
    (ha : ledgerState today (step today st op).store ≠ .absent) :
    headerPresent today (step today st op).store = true := by
  have hf : findSheet st.store today = none := by
    rcases hq : findSheet st.store today with _ | ws
    · rfl
    · rw [ledgerState_found today st.store ws hq] at hb
      by_cases h1 : ws.length ≤ 1 <;> simp [h1] at hb
  rcases step_findSheet_today today st op with h1 | ⟨_, h2 | ⟨row, h2⟩⟩ | ⟨ws, row, hfs, _⟩ |
    ⟨_, ws, hfs, _, _⟩
  · exact absurd (by rw [ledgerState, h1, hf]) ha
  · exact headerPresent_found today _ [] h2
  · exact headerPresent_found today _ [row] h2
  · rw [hfs] at hf
    exact absurd hf (by simp)
  · rw [hfs] at hf
    exact absurd hf (by simp)

/-- Claim C7: the Day Ledger moves only through the states
Absent → HeaderOnly → HasRows. For one step from ANY session state
(the Absent state included, which is where every day's operation sequence
starts): the state's rank never decreases except for `void_last_sale`,
which may return HasRows to HeaderOnly; whenever the header row is
present it is still present after the step; whenever a step takes the
ledger out of Absent, the ledger it creates carries the header row; and
hence along every operation sequence, once the header exists it is never
removed. -/
theorem C7_ledger_state_machine (today : String) (st : SessionState) (op : Op)
    (ops : List Op) :
    ((ledgerState today st.store).rank ≤
        (ledgerState today (step today st op).store).rank ∨
      (op = .voidLast ∧ ledgerState today st.store = .hasRows ∧
        ledgerState today (step today st op).store = .headerOnly)) ∧
    (headerPresent today st.store = true →
      headerPresent today (step today st op).store = true) ∧
    (ledgerState today st.store = .absent →
      ledgerState today (step today st op).store ≠ .absent →
      headerPresent today (step today st op).store = true) ∧
    (headerPresent today st.store = true →
      headerPresent today (ops.foldl (step today) st).store = true) := by
  refine ⟨step_rank_allowed today st op, step_header_preserved today st op,
    step_creation_installs_header today st op, ?_⟩
  induction ops generalizing st with
  | nil => exact fun h => h
  | cons o os ih => exact fun h => ih (step today st o) (step_header_preserved today st o h)

/-! ## Witnesses: each hypothesis-bearing claim theorem applied at a
concrete input -/

/-- Witness for C1 at basket `[300, 200, 300]` over the empty store. -/
theorem C1_confirm_sale_appends_exactly_one_row_witness :
    ([300, 200, 300] : List Nat) ≠ [] ∧
    wfToday "2025-11-21" [] = true ∧
    ((confirm_sale "2025-11-21" "12:00:00" [300, 200, 300] []).2 = .ok ∧
      (confirm_sale "2025-11-21" "12:00:00" [300, 200, 300] []).1.1 = [] ∧
      txRows "2025-11-21" (confirm_sale "2025-11-21" "12:00:00" [300, 200, 300] []).1.2 =
        txRows "2025-11-21" [] ++
          [["12:00:00", "2025-11-21", natRepr (List.length [300, 200, 300]),
            natRepr (List.sum [300, 200, 300]), detailString [300, 200, 300]]] ∧
      (get_today_stats "2025-11-21"
          (confirm_sale "2025-11-21" "12:00:00" [300, 200, 300] []).1.2).2 =
        addPair (get_today_stats "2025-11-21" []).2
          ((List.length [300, 200, 300] : Int), (List.sum [300, 200, 300] : Int))) :=
  ⟨by decide, by decide,
    C1_confirm_sale_appends_exactly_one_row "2025-11-21" "12:00:00" [300, 200, 300] []
      (by decide) (by decide)⟩

/-- Witness for C2 at basket `[300, 200, 300]` over the empty store. -/
theorem C2_confirm_then_void_restores_row_count_witness :
    ([300, 200, 300] : List Nat) ≠ [] ∧
    (txRowCount "2025-11-21"
        (cancel_last_transaction "2025-11-21"
          (confirm_sale "2025-11-21" "12:00:00" [300, 200, 300] []).1.2).1 =
      txRowCount "2025-11-21" [] ∧
    (confirm_sale "2025-11-21" "12:00:00" [300, 200, 300] []).1.1 = [] ∧
    (step "2025-11-21" ⟨[500], []⟩ .voidLast).basket = [500]) :=
  ⟨by decide,
    C2_confirm_then_void_restores_row_count "2025-11-21" "12:00:00" [300, 200, 300] []
      ⟨[500], []⟩ (by decide)⟩

/-- Witness for C3 at `n = 3` over the spec's example store: three dated
tables plus one non-date table. -/
theorem C3_period_stats_refines_spec_witness :
    1 ≤ 3 ∧
    get_last_n_days_stats 3
      [("extras", [["x", "y"]]),
       ("2025-11-19", [headerRow, ["10:00:00", "2025-11-19", "1", "300", ""]]),
       ("2025-11-20", [headerRow, ["10:00:00", "2025-11-20", "2", "400", ""]]),
       ("2025-11-21", [headerRow, ["10:00:00", "2025-11-21", "3", "900", ""]])] =
      specPeriodStats 3
      [("extras", [["x", "y"]]),
       ("2025-11-19", [headerRow, ["10:00:00", "2025-11-19", "1", "300", ""]]),
       ("2025-11-20", [headerRow, ["10:00:00", "2025-11-20", "2", "400", ""]]),
       ("2025-11-21", [headerRow, ["10:00:00", "2025-11-21", "3", "900", ""]])] ∧
    get_last_n_days_stats 3
      [("extras", [["x", "y"]]),
       ("2025-11-19", [headerRow, ["10:00:00", "2025-11-19", "1", "300", ""]]),
       ("2025-11-20", [headerRow, ["10:00:00", "2025-11-20", "2", "400", ""]]),
       ("2025-11-21", [headerRow, ["10:00:00", "2025-11-21", "3", "900", ""]])] =
      (6, 1600, some "2025-11-19", some "2025-11-21") :=
  ⟨by decide,
    C3_period_stats_refines_spec 3
      [("extras", [["x", "y"]]),
       ("2025-11-19", [headerRow, ["10:00:00", "2025-11-19", "1", "300", ""]]),
       ("2025-11-20", [headerRow, ["10:00:00", "2025-11-20", "2", "400", ""]]),
       ("2025-11-21", [headerRow, ["10:00:00", "2025-11-21", "3", "900", ""]])]
      (by decide),
    by decide⟩

/-- Witness for C6 (amended): the absent-ledger branch at the empty store
and the delete-last-row branch at a one-transaction ledger. -/
theorem C6_void_last_sale_amended_witness :
    cancel_last_transaction "2025-11-21" [] =
      ([("2025-11-21", [headerRow])], .emptyLedger) ∧
    (cancel_last_transaction "2025-11-21"
        [("2025-11-21", [headerRow, ["12:00:00", "2025-11-21", "1", "300", ""]])]).2 =
      .ok :=
  ⟨(C6_void_last_sale_amended "2025-11-21" "other" [] ⟨[], []⟩).1 rfl,
    ((C6_void_last_sale_amended "2025-11-21" "other"
        [("2025-11-21", [headerRow, ["12:00:00", "2025-11-21", "1", "300", ""]])]
        ⟨[], []⟩).2.2.1 (by decide)).1⟩

/-- The one-transaction ledger used by the C7 witness. -/
def c7Store : Store :=
  [("2025-11-21", [headerRow, ["12:00:00", "2025-11-21", "1", "300", ""]])]

/-- Witness for C7: a `void_last_sale` step from the Absent state
(discharging the creation implication: the ledger the step creates
carries the header), a `void_last_sale` step from a header-bearing
one-transaction ledger (discharging header preservation), and a
two-operation sequence (discharging the sequence conjunct). -/
theorem C7_ledger_state_machine_witness :
    (ledgerState "2025-11-21" (SessionState.mk [] []).store = .absent ∧
      ledgerState "2025-11-21"
        (step "2025-11-21" (SessionState.mk [] []) .voidLast).store ≠ .absent ∧
      headerPresent "2025-11-21"
        (step "2025-11-21" (SessionState.mk [] []) .voidLast).store = true) ∧
    (headerPresent "2025-11-21" (SessionState.mk [] c7Store).store = true ∧
      headerPresent "2025-11-21"
        (step "2025-11-21" (SessionState.mk [] c7Store) .voidLast).store = true) ∧
    headerPresent "2025-11-21"
      ([Op.voidLast, Op.readTodayStats].foldl (step "2025-11-21")
        (SessionState.mk [] c7Store)).store = true :=
  ⟨⟨by decide, by decide,
      (C7_ledger_state_machine "2025-11-21" (SessionState.mk [] []) .voidLast []).2.2.1
        (by decide) (by decide)⟩,
    ⟨by decide,
      (C7_ledger_state_machine "2025-11-21" (SessionState.mk [] c7Store) .voidLast []).2.1
        (by decide)⟩,
    (C7_ledger_state_machine "2025-11-21" (SessionState.mk [] c7Store) .voidLast
        [Op.voidLast, Op.readTodayStats]).2.2.2 (by decide)⟩

/-- Witness for C8 at the permuted baskets `[300, 200, 300]` and
`[200, 300, 300]`. -/
theorem C8_detail_is_permutation_invariant_witness :
    ([300, 200, 300] : List Nat).Perm [200, 300, 300] ∧
    (detailString [300, 200, 300] = detailString [200, 300, 300] ∧
      detailString [300, 200, 300] = "200円×1, 300円×2") :=
  ⟨by decide,
    C8_detail_is_permutation_invariant [300, 200, 300] [200, 300, 300] (by decide)⟩

/-- Witness for C10 at a row whose count cell is `"5"` but whose amount
cell is the non-numeric `"x"`. -/
theorem C10_row_contribution_is_all_or_nothing_witness :
    ((["12:00:00", "2025-11-21", "5", "x", ""] : Row).get? 2).bind parsePyInt = some 5 ∧
    ((["12:00:00", "2025-11-21", "5", "x", ""] : Row).get? 3).bind parsePyInt = none ∧
    (rowStat ["12:00:00", "2025-11-21", "5", "x", ""] = (0, 0) ∧
      sumStats ([] ++ [["12:00:00", "2025-11-21", "5", "x", ""]]) = sumStats [] ∧
      (get_today_stats "2025-11-21"
          [("2025-11-21", headerRow ::
            ([] ++ [["12:00:00", "2025-11-21", "5", "x", ""]]))]).2 =
        (get_today_stats "2025-11-21" [("2025-11-21", headerRow :: [])]).2 ∧
      get_last_n_days_stats 3
          [("2025-11-21", headerRow ::
            ([] ++ [["12:00:00", "2025-11-21", "5", "x", ""]]))] =
        get_last_n_days_stats 3 [("2025-11-21", headerRow :: [])]) :=
  ⟨by decide, by decide,
    C10_row_contribution_is_all_or_nothing ["12:00:00", "2025-11-21", "5", "x", ""] 5 []
      "2025-11-21" "2025-11-21" headerRow 3 (by decide) (by decide)⟩

end PotatoApp
